import Mathlib

/-!
Verification development for the CAT (computerized adaptive testing) service:
a shallow embedding over ℝ of the 3PL IRT model, the theta estimator with its
fallback paths, the information-based item selector, and the two coordinator
endpoints, translated from cat_service_api.py and tts_irt.py.
-/

namespace CatService

/-! ## Definitions -/

/-- An item row `(ParamA, ParamB, ParamC, ParamD)` as used by the service. -/
structure Item where
  a : ℝ
  b : ℝ
  c : ℝ
  d : ℝ

instance : Inhabited Item := ⟨⟨1, 0, 0, 1⟩⟩

/-- `np.clip(x, lo, hi)`: `lo` if `x < lo`, `hi` if `x > hi`, else `x`. -/
noncomputable def clip (x lo hi : ℝ) : ℝ := min (max x lo) hi

/-- `irt_prob(a, b, c, theta)` from cat_service_api.py (and, overflow guard
apart, tts_irt.py): 3PL model probability
`c + (1 - c) / (1 + exp(-1.7 * a * (theta - b)))`. -/
noncomputable def irt_prob (a b c θ : ℝ) : ℝ :=
  c + (1 - c) / (1 + Real.exp (-1.7 * a * (θ - b)))

/-- `item_information(item, theta)` from cat_service_api.py: Fisher
information for the 3PL model, keeping the `P*Q` factor in both numerator and
denominator, with the degenerate guard returning `0.0`. -/
noncomputable def item_information (item : Item) (θ : ℝ) : ℝ :=
  let P := irt_prob item.a item.b item.c θ
  let Q := 1 - P
  if P ≤ 0 ∨ Q ≤ 0 ∨ (1 - item.c) = 0 then 0
  else (1.7 * item.a) ^ 2 * ((P - item.c) ^ 2 / ((1 - item.c) ^ 2 * P * Q)) * P * Q

/-- `item_information(item, theta)` from tts_irt.py: the algebraically
simplified form `(1.7*a)^2 * (P - c)^2 / (1 - c)^2`, same degenerate guard. -/
noncomputable def tts_item_information (item : Item) (θ : ℝ) : ℝ :=
  let P := irt_prob item.a item.b item.c θ
  let Q := 1 - P
  if P ≤ 0 ∨ Q ≤ 0 ∨ (1 - item.c) = 0 then 0
  else (1.7 * item.a) ^ 2 * ((P - item.c) ^ 2 / (1 - item.c) ^ 2)

/-- Outcome of one call to the external `NumericalSearchEstimator.estimate`
(the catsim library, outside this repository): either a fitted theta, or an
exception / non-convergence. -/
inductive SearchOutcome where
  | ok (θ : ℝ)
  | err

/-- The external numerical search, abstracted: from the item bank, the
administered indices, the response vector and the seed theta to an outcome. -/
def SearchFun : Type :=
  List Item → List ℕ → List ℤ → ℝ → SearchOutcome

/-- `estimate_theta(items, administered_items, responses, current_theta)` from
cat_service_api.py. Returns `(new_theta, theta_before)`. The short-history
branch (`len(administered_items) <= 1`) takes a fixed ±0.3 step; otherwise the
numerical search runs, its result clipped, and any exception falls back to a
fixed ±0.2 step. `responses and responses[-1] == 1` is modelled by
`responses.getLast? = some 1`. -/
noncomputable def estimate_theta (search : SearchFun) (items : List Item)
    (administered : List ℕ) (responses : List ℤ) (currentTheta : ℝ) : ℝ × ℝ :=
  let theta_before := currentTheta
  if administered.length ≤ 1 then
    let delta : ℝ := if responses.getLast? = some 1 then 0.3 else -0.3
    (clip (currentTheta + delta) (-4) 4, theta_before)
  else
    match search items administered responses currentTheta with
    | SearchOutcome.ok newTheta => (clip newTheta (-4) 4, theta_before)
    | SearchOutcome.err =>
        let delta : ℝ := if responses.getLast? = some 1 then 0.2 else -0.2
        (clip (currentTheta + delta) (-4) 4, theta_before)

/-! ### Item selector (next_question: filter, argsort, top-3, random choice) -/

/-- `np.argsort(info_values)[::-1]`: the indices of `vals` ordered by
descending value (tie order unspecified in the source, since numpy's default
quicksort is unstable; any descending permutation is a faithful model). -/
noncomputable def argsortDesc (vals : List ℝ) : List ℕ :=
  @List.insertionSort ℕ (fun i j => vals.getD j 0 ≤ vals.getD i 0)
    (fun i j => Real.decidableLE (vals.getD j 0) (vals.getD i 0))
    (List.range vals.length)

/-- `df[~df["Id"].isin(answered_questions)]`: the pool rows whose id is not
among the answered ids. -/
def unanswered_pool (pool : List (String × Item)) (answered : List String) :
    List (String × Item) :=
  pool.filter (fun p => decide (p.1 ∉ answered))

/-- `info_values = [item_information(item, current_theta) for item in ...]`. -/
noncomputable def info_values (pool : List (String × Item)) (answered : List String)
    (θ : ℝ) : List ℝ :=
  (unanswered_pool pool answered).map (fun p => item_information p.2 θ)

/-- `top_k = sorted_indices[:3] if len(sorted_indices) >= 3 else sorted_indices`. -/
noncomputable def top_k (pool : List (String × Item)) (answered : List String)
    (θ : ℝ) : List ℕ :=
  (argsortDesc (info_values pool answered θ)).take 3

/-- `random.choice(top_k)` followed by `unanswered_df.iloc[...]`, with the
random draw modelled by an arbitrary pick index into `top_k`. -/
noncomputable def select_next (pool : List (String × Item)) (answered : List String)
    (θ : ℝ) (pick : ℕ) : Option (String × Item) :=
  match (top_k pool answered θ).get? pick with
  | some i => (unanswered_pool pool answered).get? i
  | none => none

/-! ### Session coordinator: persistent state and the two endpoints -/

/-- One row of dbo.CAT_Logs (the AdministeredRecord sink). -/
structure LogEntry where
  user : String
  course : String
  assignment : String
  qid : String
  response : Bool
  thetaBefore : ℝ
  thetaAfter : ℝ

/-- One row of dbo.CAT_Results (the SubmissionResult sink). -/
structure ResultEntry where
  user : String
  course : String
  assignment : String
  finalTheta : ℝ
  correctCount : ℤ
  totalQuestions : ℕ
  thetaBefore : ℝ
  thetaAfter : ℝ

/-- The persistent state touched by the two endpoints: dbo.UserAbilities
(keyed by user × course), dbo.CAT_Logs, dbo.CAT_Results. -/
structure DBState where
  abilities : List ((String × String) × ℝ)
  logs : List LogEntry
  results : List ResultEntry

def dbEmpty : DBState := ⟨[], [], []⟩

/-- `SELECT Theta FROM dbo.UserAbilities WHERE UserId = :u AND CourseId = :c`. -/
def lookupTheta (abilities : List ((String × String) × ℝ)) (u c : String) : Option ℝ :=
  (abilities.find? (fun e => decide (e.1 = (u, c)))).map Prod.snd

/-- The submit upsert: `UPDATE ... WHERE UserId`/`CourseId`; if the rowcount
is 0, `INSERT` a fresh row. -/
def upsertTheta (abilities : List ((String × String) × ℝ)) (u c : String) (t : ℝ) :
    List ((String × String) × ℝ) :=
  if abilities.any (fun e => decide (e.1 = (u, c))) then
    abilities.map (fun e => if e.1 = (u, c) then (e.1, t) else e)
  else abilities ++ [((u, c), t)]

/-- Request body of POST /api/cat/next-question. -/
structure NQReq where
  user : String
  course : String
  assignment : String
  answered : List String
  lastResponse : List ℤ
  clientTheta : Option ℝ

/-- Response of /api/cat/next-question: 400 error, completion, or the next
question (the `round(·, 3)` presentation of theta is not modelled). -/
inductive NQResp where
  | error
  | completed (finalTheta : ℝ)
  | next (qid : String) (tempTheta : ℝ)

/-- `next_question` from cat_service_api.py. `qbank` abstracts the
McqQuestions query (eligible items of the assignment, in row order), `search`
the external numerical estimator, `pick` the `random.choice` draw. Returns
the state after the call together with the response. -/
noncomputable def next_question (qbank : String → List (String × Item))
    (search : SearchFun) (pick : ℕ) (st : DBState) (req : NQReq) : DBState × NQResp :=
  let found := lookupTheta st.abilities req.user req.course
  let st1 : DBState :=
    match found with
    | some _ => st
    | none => { st with abilities := st.abilities ++ [((req.user, req.course), 0)] }
  let θ0 : ℝ := match found with | some t => t | none => 0
  let θ1 : ℝ := req.clientTheta.getD θ0
  let pool := qbank req.assignment
  if pool.isEmpty then (st1, NQResp.error)
  else
    let all_ids := pool.map Prod.fst
    let items := pool.map Prod.snd
    let step : DBState × ℝ :=
      if h : req.lastResponse ≠ [] ∧ req.answered ≠ [] then
        let matched := req.answered.filter (fun q => decide (q ∈ all_ids))
        let administered := matched.map (fun q => all_ids.indexOf q)
        let resp : List ℤ := [req.lastResponse.getLast h.1]
        let θafter := (estimate_theta search items administered resp θ1).1
        ({ st1 with logs := st1.logs ++
            [⟨req.user, req.course, req.assignment, req.answered.getLast h.2,
              decide (req.lastResponse.getLast h.1 ≠ 0), θ1, θafter⟩] }, θafter)
      else (st1, θ1)
    if (unanswered_pool pool req.answered).isEmpty then (step.1, NQResp.completed step.2)
    else
      match select_next pool req.answered step.2 pick with
      | some sel => (step.1, NQResp.next sel.1 step.2)
      | none => (step.1, NQResp.error)

/-- Request body of POST /api/cat/submit. -/
structure SubmitReq where
  user : String
  course : String
  assignment : String
  answered : List String
  responses : List ℤ
  alpha : ℝ

/-- Response of /api/cat/submit (400 error or the success payload; the
`round(·, 3)` presentation of the two thetas is not modelled). -/
inductive SubmitResp where
  | error
  | ok (finalTheta updatedTheta : ℝ) (correct : ℤ) (total : ℕ)

def SubmitResp.correctC : SubmitResp → Option ℤ
  | SubmitResp.ok _ _ c _ => some c
  | SubmitResp.error => none

def SubmitResp.totalQ : SubmitResp → Option ℕ
  | SubmitResp.ok _ _ _ t => some t
  | SubmitResp.error => none

def SubmitResp.finalT : SubmitResp → Option ℝ
  | SubmitResp.ok f _ _ _ => some f
  | SubmitResp.error => none

/-- The submit loop `for qid, r in zip(answered_questions, responses): if qid
in all_ids: ...`, which keeps only the pairs whose id resolves in the pool. -/
def resolved_pairs (pool : List (String × Item)) (answered : List String)
    (responses : List ℤ) : List (String × ℤ) :=
  (answered.zip responses).filter (fun p => decide (p.1 ∈ pool.map Prod.fst))

/-- `submit_assignment` from cat_service_api.py: validate, resolve the
answered ids against the assignment pool, estimate over the resolved history,
persist a CAT_Results row, and fold the result into UserAbilities by
exponential smoothing with the request's alpha. -/
noncomputable def submit_assignment (qbank : String → List (String × Item))
    (search : SearchFun) (st : DBState) (req : SubmitReq) : DBState × SubmitResp :=
  if req.answered = [] ∨ req.responses = [] ∨ req.answered.length ≠ req.responses.length then
    (st, SubmitResp.error)
  else if (qbank req.assignment).isEmpty then (st, SubmitResp.error)
  else
    let θbefore := (lookupTheta st.abilities req.user req.course).getD 0
    let resolved := resolved_pairs (qbank req.assignment) req.answered req.responses
    let finalθ := (estimate_theta search ((qbank req.assignment).map Prod.snd)
      (resolved.map (fun p => ((qbank req.assignment).map Prod.fst).indexOf p.1))
      (resolved.map Prod.snd) θbefore).1
    let newθ := θbefore * (1 - req.alpha) + finalθ * req.alpha
    ({ st with
        results := st.results ++ [⟨req.user, req.course, req.assignment, finalθ,
          (resolved.map Prod.snd).sum, (resolved.map Prod.snd).length, θbefore, finalθ⟩],
        abilities := upsertTheta st.abilities req.user req.course newθ },
      SubmitResp.ok finalθ newθ (resolved.map Prod.snd).sum (resolved.map Prod.snd).length)

/-! ### Concrete inputs used by counterexamples and witnesses -/

/-- A one-item question bank whose only id is "A". -/
def cexQbank : String → List (String × Item) := fun _ => [("A", default)]

/-- A numerical search that always fails. -/
def errSearch : SearchFun := fun _ _ _ _ => SearchOutcome.err

/-- A submit request whose single answered id "B" does not resolve in
`cexQbank`, with one correct response. -/
noncomputable def cexSubmitReq : SubmitReq := ⟨"u", "co", "as", ["B"], [1], 0.2⟩

/-- A first-contact next-question request carrying no answered history. -/
def cexNQReq : NQReq := ⟨"u", "co", "as", [], [], none⟩

/-- A submit request whose single answered id "A" resolves in `cexQbank`. -/
noncomputable def okSubmitReq : SubmitReq := ⟨"u", "co", "as", ["A"], [1], 0.2⟩

/-- A submit request failing validation (empty answered list). -/
noncomputable def badSubmitReq : SubmitReq := ⟨"u", "co", "as", [], [], 0.2⟩

/-! ## Lemmas and claim theorems -/

/-! ### `clip` and the estimator -/

lemma clip_le (x : ℝ) : clip x (-4) 4 ≤ 4 := min_le_right _ _

lemma le_clip (x : ℝ) : (-4 : ℝ) ≤ clip x (-4) 4 :=
  le_min (le_max_right _ _) (by norm_num)

/-- Every branch of the estimator clips its first component into `[-4, 4]`. -/
lemma estimate_theta_fst_bounds (search : SearchFun) (items : List Item)
    (administered : List ℕ) (responses : List ℤ) (θ : ℝ) :
    (-4 : ℝ) ≤ (estimate_theta search items administered responses θ).1 ∧
      (estimate_theta search items administered responses θ).1 ≤ 4 := by
  unfold estimate_theta
  by_cases h : administered.length ≤ 1
  · simp only [h, if_true]
    exact ⟨le_clip _, clip_le _⟩
  · simp only [h, if_false]
    cases search items administered responses θ with
    | ok t => exact ⟨le_clip _, clip_le _⟩
    | err => exact ⟨le_clip _, clip_le _⟩

/-- The second component returned is always the prior theta. -/
lemma estimate_theta_snd (search : SearchFun) (items : List Item)
    (administered : List ℕ) (responses : List ℤ) (θ : ℝ) :
    (estimate_theta search items administered responses θ).2 = θ := by
  unfold estimate_theta
  by_cases h : administered.length ≤ 1
  · simp [h]
  · simp only [h, if_false]
    cases search items administered responses θ <;> rfl

/-- With an empty responses list the short-history branch steps down 0.3. -/
lemma estimate_theta_nil (search : SearchFun) (items : List Item)
    (administered : List ℕ) (θ : ℝ) (hlen : administered.length ≤ 1) :
    estimate_theta search items administered [] θ = (clip (θ - 0.3) (-4) 4, θ) := by
  unfold estimate_theta
  rw [if_pos hlen]
  rw [if_neg (show ¬(List.getLast? ([] : List ℤ) = some 1) by simp)]
  norm_num
  ring_nf

/-- C1: For every call to the ability estimator (estimate_theta), on every
path — the fixed-step heuristic for 0 or 1 administered items, the numerical
search, and the exception fallback — the returned new theta lies within
[-4, 4], for any input priorTheta (including values outside [-4, 4]). -/
theorem estimate_theta_always_in_range (search : SearchFun) (items : List Item)
    (administered : List ℕ) (responses : List ℤ) (priorTheta : ℝ) :
    (-4 : ℝ) ≤ (estimate_theta search items administered responses priorTheta).1 ∧
      (estimate_theta search items administered responses priorTheta).1 ≤ 4 :=
  estimate_theta_fst_bounds search items administered responses priorTheta

/-- C2: For every priorTheta and every non-empty responses list, if the
administered-items list is empty or contains exactly one item, Estimate
returns (clamp(priorTheta + 0.3, -4, 4), priorTheta) when the most recent
response is correct and (clamp(priorTheta - 0.3, -4, 4), priorTheta) when it
is incorrect, regardless of the items' a/b/c parameters. -/
theorem estimate_theta_short_history (search : SearchFun) (items : List Item)
    (administered : List ℕ) (responses : List ℤ) (priorTheta : ℝ)
    (hlen : administered.length ≤ 1) (hne : responses ≠ []) :
    (responses.getLast hne = 1 →
      estimate_theta search items administered responses priorTheta =
        (clip (priorTheta + 0.3) (-4) 4, priorTheta)) ∧
    (responses.getLast hne = 0 →
      estimate_theta search items administered responses priorTheta =
        (clip (priorTheta - 0.3) (-4) 4, priorTheta)) := by
  have hlast : responses.getLast? = some (responses.getLast hne) :=
    List.getLast?_eq_getLast responses hne
  constructor
  · intro h1
    unfold estimate_theta
    rw [if_pos hlen, hlast, h1]
    norm_num
  · intro h0
    unfold estimate_theta
    rw [if_pos hlen, hlast, h0]
    norm_num
    ring_nf

/-- Witness for C2 at priorTheta = 1.2, a single item, responses = [1]. -/
theorem estimate_theta_short_history_witness :
    ([0] : List ℕ).length ≤ 1 ∧ ([1] : List ℤ) ≠ [] ∧
      estimate_theta (fun _ _ _ _ => SearchOutcome.err) [default] [0] [1] 1.2 =
        (clip (1.2 + 0.3) (-4) 4, 1.2) := by
  refine ⟨by simp, by simp, ?_⟩
  exact (estimate_theta_short_history (fun _ _ _ _ => SearchOutcome.err) [default]
    [0] [1] 1.2 (by simp) (by simp)).1 (by simp)

/-- C6: For every input on which the numerical ability search fails to
converge or raises any error, Estimate does not propagate the error: it
returns (clamp(priorTheta + 0.2, -4, 4), priorTheta) when the most recent
response is correct, else (clamp(priorTheta - 0.2, -4, 4), priorTheta),
always a valid clamped theta. -/
theorem estimate_theta_error_fallback (search : SearchFun) (items : List Item)
    (administered : List ℕ) (responses : List ℤ) (priorTheta : ℝ)
    (hlen : 1 < administered.length)
    (hfail : search items administered responses priorTheta = SearchOutcome.err) :
    estimate_theta search items administered responses priorTheta =
      (clip (priorTheta + if responses.getLast? = some 1 then 0.2 else -0.2) (-4) 4,
        priorTheta) ∧
    (-4 : ℝ) ≤ (estimate_theta search items administered responses priorTheta).1 ∧
      (estimate_theta search items administered responses priorTheta).1 ≤ 4 := by
  refine ⟨?_, estimate_theta_fst_bounds _ _ _ _ _⟩
  unfold estimate_theta
  rw [if_neg (by omega), hfail]

/-- Witness for C6: a search that always errs, two administered items. -/
theorem estimate_theta_error_fallback_witness :
    1 < ([0, 1] : List ℕ).length ∧
      errSearch [default, default] [0, 1] [1, 0] 0 = SearchOutcome.err ∧
      estimate_theta errSearch [default, default] [0, 1] [1, 0] 0 =
        (clip ((0 : ℝ) + if ([1, 0] : List ℤ).getLast? = some 1 then 0.2 else -0.2) (-4) 4,
          (0 : ℝ)) := by
  refine ⟨by simp, rfl, ?_⟩
  exact (estimate_theta_error_fallback errSearch
    [default, default] [0, 1] [1, 0] 0 (by simp) rfl).1

/-! ### Selector lemmas and claim -/

lemma argsortDesc_perm (vals : List ℝ) :
    List.Perm (argsortDesc vals) (List.range vals.length) :=
  List.perm_insertionSort _ _

lemma argsortDesc_sorted (vals : List ℝ) :
    List.Sorted (fun i j => vals.getD j 0 ≤ vals.getD i 0) (argsortDesc vals) := by
  letI : IsTotal ℕ (fun i j => vals.getD j 0 ≤ vals.getD i 0) := ⟨fun i j => le_total _ _⟩
  letI : IsTrans ℕ (fun i j => vals.getD j 0 ≤ vals.getD i 0) :=
    ⟨fun a b c hab hbc => le_trans hbc hab⟩
  exact List.sorted_insertionSort _ _

lemma argsortDesc_length (vals : List ℝ) : (argsortDesc vals).length = vals.length := by
  rw [(argsortDesc_perm vals).length_eq, List.length_range]

lemma mem_argsortDesc (vals : List ℝ) (i : ℕ) :
    i ∈ argsortDesc vals ↔ i < vals.length := by
  rw [(argsortDesc_perm vals).mem_iff, List.mem_range]

/-- Elements kept by `take 3` dominate, in value, every element left out. -/
lemma argsortDesc_take_dominates (vals : List ℝ) (i j : ℕ)
    (hi : i ∈ (argsortDesc vals).take 3) (hj : j < vals.length)
    (hj' : j ∉ (argsortDesc vals).take 3) :
    vals.getD j 0 ≤ vals.getD i 0 := by
  have hs := argsortDesc_sorted vals
  rw [← List.take_append_drop 3 (argsortDesc vals)] at hs
  obtain ⟨-, -, hcross⟩ := List.pairwise_append.mp hs
  have hjmem : j ∈ argsortDesc vals := (mem_argsortDesc vals j).mpr hj
  rw [← List.take_append_drop 3 (argsortDesc vals), List.mem_append] at hjmem
  exact hcross i hi j (hjmem.resolve_left hj')

/-- C3: For every ability estimate theta and every non-empty pool of
not-yet-administered items, the item returned by the selector is drawn from
the pool excluding all already-answered item ids (an administered item is
never re-offered within the attempt), and is always one of the K = 3 (or
fewer, if the pool is smaller) candidates with the highest Fisher information
at theta, chosen uniformly at random among them (the random draw modelled
nondeterministically: every pick lands in the top-K, and every top-K
candidate is reachable by some pick). -/
theorem select_next_spec (pool : List (String × Item)) (answered : List String)
    (θ : ℝ) (pick : ℕ) (sel : String × Item)
    (h : select_next pool answered θ pick = some sel) :
    sel ∈ pool ∧ sel.1 ∉ answered ∧
    (top_k pool answered θ).length = min 3 (unanswered_pool pool answered).length ∧
    (∃ i ∈ top_k pool answered θ,
      (unanswered_pool pool answered).get? i = some sel ∧
      ∀ j < (unanswered_pool pool answered).length, j ∉ top_k pool answered θ →
        (info_values pool answered θ).getD j 0 ≤ (info_values pool answered θ).getD i 0) ∧
    ∀ i ∈ top_k pool answered θ, ∃ pk,
      select_next pool answered θ pk = (unanswered_pool pool answered).get? i := by
  have hlen : (info_values pool answered θ).length = (unanswered_pool pool answered).length :=
    List.length_map _ _
  unfold select_next at h
  rcases hidx : (top_k pool answered θ).get? pick with - | i
  · rw [hidx] at h; exact absurd h (by simp)
  rw [hidx] at h
  have hitop : i ∈ top_k pool answered θ := List.get?_mem hidx
  have hselmem : sel ∈ unanswered_pool pool answered := List.get?_mem h
  have hfilter := List.mem_filter.mp hselmem
  refine ⟨hfilter.1, by simpa using hfilter.2, ?_, ⟨i, hitop, h, ?_⟩, ?_⟩
  · rw [top_k, List.length_take, argsortDesc_length, hlen]
  · intro j hj hjtop
    exact argsortDesc_take_dominates (info_values pool answered θ) i j hitop
      (by rw [hlen]; exact hj) hjtop
  · intro i' hi'
    obtain ⟨n, hn⟩ := List.mem_iff_get.mp hi'
    refine ⟨n, ?_⟩
    unfold select_next
    rw [List.get?_eq_get n.isLt, hn]

/-- Witness for C3: a one-item pool, nothing answered, pick 0. -/
theorem select_next_spec_witness :
    select_next [("q1", (default : Item))] [] 0 0 = some ("q1", default) ∧
    (("q1", (default : Item)) ∈ [("q1", (default : Item))] ∧
      "q1" ∉ ([] : List String) ∧
      (top_k [("q1", (default : Item))] [] 0).length =
        min 3 (unanswered_pool [("q1", (default : Item))] []).length ∧
      (∃ i ∈ top_k [("q1", (default : Item))] [] 0,
        (unanswered_pool [("q1", (default : Item))] []).get? i = some ("q1", default) ∧
        ∀ j < (unanswered_pool [("q1", (default : Item))] []).length,
          j ∉ top_k [("q1", (default : Item))] [] 0 →
          (info_values [("q1", (default : Item))] [] 0).getD j 0 ≤
            (info_values [("q1", (default : Item))] [] 0).getD i 0) ∧
      ∀ i ∈ top_k [("q1", (default : Item))] [] 0, ∃ pk,
        select_next [("q1", (default : Item))] [] 0 pk =
          (unanswered_pool [("q1", (default : Item))] []).get? i) := by
  have h : select_next [("q1", (default : Item))] [] 0 0 = some ("q1", default) := by
    simp [select_next, top_k, info_values, unanswered_pool, argsortDesc]
  exact ⟨h, select_next_spec _ _ _ _ _ h⟩

/-! ### IRT model claims -/

lemma item_information_def (item : Item) (θ : ℝ) :
    item_information item θ =
      if irt_prob item.a item.b item.c θ ≤ 0 ∨ 1 - irt_prob item.a item.b item.c θ ≤ 0 ∨
          (1 - item.c) = 0 then 0
      else (1.7 * item.a) ^ 2 *
          ((irt_prob item.a item.b item.c θ - item.c) ^ 2 /
            ((1 - item.c) ^ 2 * irt_prob item.a item.b item.c θ *
              (1 - irt_prob item.a item.b item.c θ))) *
          irt_prob item.a item.b item.c θ * (1 - irt_prob item.a item.b item.c θ) := rfl

lemma tts_item_information_def (item : Item) (θ : ℝ) :
    tts_item_information item θ =
      if irt_prob item.a item.b item.c θ ≤ 0 ∨ 1 - irt_prob item.a item.b item.c θ ≤ 0 ∨
          (1 - item.c) = 0 then 0
      else (1.7 * item.a) ^ 2 *
          ((irt_prob item.a item.b item.c θ - item.c) ^ 2 / (1 - item.c) ^ 2) := rfl

/-- C7: For every a > 0, b, c ∈ [0, 1) and every theta, ResponseProbability
equals c + (1 - c) / (1 + exp(-1.7 · a · (theta - b))) and its value lies in
[c, 1); in particular ResponseProbability(a, b, c, b) = c + (1 - c)/2 and the
function is defined (saturating, not erroring) for arbitrarily large
|theta - b|. -/
theorem irt_prob_spec (a b c θ : ℝ) (ha : 0 < a) (hc0 : 0 ≤ c) (hc1 : c < 1) :
    irt_prob a b c θ = c + (1 - c) / (1 + Real.exp (-1.7 * a * (θ - b))) ∧
    c ≤ irt_prob a b c θ ∧ irt_prob a b c θ < 1 ∧
    irt_prob a b c b = c + (1 - c) / 2 := by
  have he : 0 < Real.exp (-1.7 * a * (θ - b)) := Real.exp_pos _
  have hd : (0 : ℝ) < 1 + Real.exp (-1.7 * a * (θ - b)) := by linarith
  refine ⟨rfl, ?_, ?_, ?_⟩
  · have : 0 ≤ (1 - c) / (1 + Real.exp (-1.7 * a * (θ - b))) :=
      div_nonneg (by linarith) (le_of_lt hd)
    unfold irt_prob
    linarith
  · have : (1 - c) / (1 + Real.exp (-1.7 * a * (θ - b))) < 1 - c :=
      div_lt_self (by linarith) (by linarith)
    unfold irt_prob
    linarith
  · unfold irt_prob
    have : -1.7 * a * (b - b) = 0 := by ring
    rw [this, Real.exp_zero]
    norm_num

/-- Witness for C7 at a = 1, b = 0, c = 0, theta = 0. -/
theorem irt_prob_spec_witness :
    (0 : ℝ) < 1 ∧ (0 : ℝ) ≤ 0 ∧ (0 : ℝ) < 1 ∧
      (irt_prob 1 0 0 0 = 0 + (1 - 0) / (1 + Real.exp (-1.7 * 1 * (0 - 0))) ∧
        (0 : ℝ) ≤ irt_prob 1 0 0 0 ∧ irt_prob 1 0 0 0 < 1 ∧
        irt_prob 1 0 0 0 = 0 + (1 - 0) / 2) :=
  ⟨by norm_num, by norm_num, by norm_num,
    irt_prob_spec 1 0 0 0 (by norm_num) (by norm_num) (by norm_num)⟩

/-- C8: For every item with a > 0 and c ∈ [0, 1] and every theta,
FisherInformation(item, theta) is non-negative, and it returns exactly 0
(never NaN or Inf) in the degenerate cases P ≤ 0, P ≥ 1, or c = 1, where
P = ResponseProbability(a, b, c, theta). -/
theorem item_information_nonneg (item : Item) (θ : ℝ)
    (ha : 0 < item.a) (hc0 : 0 ≤ item.c) (hc1 : item.c ≤ 1) :
    0 ≤ item_information item θ ∧
    (irt_prob item.a item.b item.c θ ≤ 0 → item_information item θ = 0) ∧
    (1 ≤ irt_prob item.a item.b item.c θ → item_information item θ = 0) ∧
    (item.c = 1 → item_information item θ = 0) := by
  rw [item_information_def]
  refine ⟨?_, ?_, ?_, ?_⟩
  · split
    · exact le_refl 0
    · rename_i hguard
      push_neg at hguard
      obtain ⟨hP, hQ, _⟩ := hguard
      positivity
  · intro h
    rw [if_pos (Or.inl h)]
  · intro h
    rw [if_pos (Or.inr (Or.inl (by linarith)))]
  · intro h
    rw [if_pos (Or.inr (Or.inr (by rw [h]; norm_num)))]

/-- Witness for C8 at the default item (a = 1, b = 0, c = 0) and theta = 0. -/
theorem item_information_nonneg_witness :
    (0 : ℝ) < Item.a default ∧ (0 : ℝ) ≤ Item.c default ∧ Item.c default ≤ 1 ∧
      (0 ≤ item_information default 0 ∧
        (irt_prob (Item.a default) (Item.b default) (Item.c default) 0 ≤ 0 →
          item_information default 0 = 0) ∧
        (1 ≤ irt_prob (Item.a default) (Item.b default) (Item.c default) 0 →
          item_information default 0 = 0) ∧
        (Item.c default = 1 → item_information default 0 = 0)) :=
  ⟨by norm_num [default], by norm_num [default], by norm_num [default],
    item_information_nonneg default 0 (by norm_num [default]) (by norm_num [default])
      (by norm_num [default])⟩

/-- C9: The two implementations of Fisher information — the service's
item_information, which keeps the P·Q factor in both numerator and
denominator, and tts_irt's item_information, which uses the algebraically
simplified (1.7·a)² · (P - c)² / (1 - c)² — are equal as functions: for every
item (a, b, c, d) and every theta not in a degenerate case (P > 0, P < 1,
c ≠ 1) they return the same value, and in the degenerate cases both
return 0. -/
theorem item_information_eq_tts (item : Item) (θ : ℝ) :
    item_information item θ = tts_item_information item θ := by
  rw [item_information_def, tts_item_information_def]
  split
  · rfl
  · rename_i hguard
    push_neg at hguard
    obtain ⟨hP, hQ, hc⟩ := hguard
    have hP' : irt_prob item.a item.b item.c θ ≠ 0 := ne_of_gt hP
    have hQ' : 1 - irt_prob item.a item.b item.c θ ≠ 0 := ne_of_gt hQ
    field_simp
    ring

/-! ### Coordinator claims -/

/-- Over a 0/1 vector, `sum(resp_list)` equals the number of 1s. -/
lemma sum_eq_count_one (l : List ℤ) (h : ∀ r ∈ l, r = 0 ∨ r = 1) :
    l.sum = l.count 1 := by
  induction l with
  | nil => simp
  | cons a t ih =>
    have ha := h a (List.mem_cons_self a t)
    have ht := ih (fun r hr => h r (List.mem_cons_of_mem a hr))
    rcases ha with h0 | h1
    · subst h0
      simp [List.count_cons, ht]
    · subst h1
      simp [List.count_cons, ht]
      ring

/-- C4 counterexample: a validated Submit whose single answered id "B" does
not resolve against the pool (whose only id is "A") reports correctCount 0
and totalQuestions 0, while the supplied responses vector [1] has one 1 and
length 1. -/
theorem submit_counts_counterexample :
    ((submit_assignment cexQbank errSearch dbEmpty cexSubmitReq).2).correctC = some 0 ∧
    cexSubmitReq.responses.count 1 = 1 ∧
    ((submit_assignment cexQbank errSearch dbEmpty cexSubmitReq).2).totalQ = some 0 ∧
    cexSubmitReq.responses.length = 1 := by
  have hvalid : ¬(cexSubmitReq.answered = [] ∨ cexSubmitReq.responses = [] ∨
      cexSubmitReq.answered.length ≠ cexSubmitReq.responses.length) := by
    simp [cexSubmitReq]
  have hpool : ¬((cexQbank cexSubmitReq.assignment).isEmpty = true) := by
    simp [cexQbank]
  have hres : resolved_pairs (cexQbank cexSubmitReq.assignment) cexSubmitReq.answered
      cexSubmitReq.responses = [] := by
    apply List.filter_eq_nil_iff.mpr
    intro p hp
    have hmem := (List.of_mem_zip hp).1
    simp only [cexSubmitReq, cexQbank] at hmem ⊢
    simp only [List.mem_singleton] at hmem
    rw [hmem]
    decide
  constructor
  · unfold submit_assignment
    rw [if_neg hvalid, if_neg hpool]
    simp [hres, SubmitResp.correctC]
  refine ⟨rfl, ?_, rfl⟩
  unfold submit_assignment
  rw [if_neg hvalid, if_neg hpool]
  simp [hres, SubmitResp.totalQ]

/-- C4 (amended): For every Submit request that passes validation, against a
non-empty pool, PROVIDED every supplied answered id resolves in the pool and
the responses entries are 0/1, the returned correctCount equals the count of
1s in the supplied responses vector, totalQuestions equals the length of the
supplied responses vector, and finalTheta lies within [-4, 4]. (In general
the counts are computed over the resolved sublist only, as the
counterexample shows.) -/
theorem submit_counts_amended (qbank : String → List (String × Item)) (search : SearchFun)
    (st : DBState) (req : SubmitReq)
    (h1 : req.answered ≠ []) (h2 : req.responses ≠ [])
    (h3 : req.answered.length = req.responses.length)
    (h4 : qbank req.assignment ≠ [])
    (h5 : ∀ q ∈ req.answered, q ∈ (qbank req.assignment).map Prod.fst)
    (h6 : ∀ r ∈ req.responses, r = 0 ∨ r = 1) :
    ∃ ft nθ, (submit_assignment qbank search st req).2 =
        SubmitResp.ok ft nθ (req.responses.count 1) req.responses.length ∧
      (-4 : ℝ) ≤ ft ∧ ft ≤ 4 := by
  have hvalid : ¬(req.answered = [] ∨ req.responses = [] ∨
      req.answered.length ≠ req.responses.length) := by
    push_neg
    exact ⟨h1, h2, h3⟩
  have hpool : ¬((qbank req.assignment).isEmpty = true) := by
    simpa [List.isEmpty_iff] using h4
  have hres : resolved_pairs (qbank req.assignment) req.answered req.responses =
      req.answered.zip req.responses := by
    apply List.filter_eq_self.mpr
    intro p hp
    simpa using h5 p.1 (List.of_mem_zip hp).1
  have hsnd : (req.answered.zip req.responses).map Prod.snd = req.responses :=
    List.map_snd_zip _ _ (le_of_eq h3.symm)
  have hcount : req.responses.sum = (req.responses.count 1 : ℤ) :=
    sum_eq_count_one req.responses h6
  unfold submit_assignment
  rw [if_neg hvalid, if_neg hpool]
  simp only [hres, hsnd]
  exact ⟨_, _, by rw [hcount], (estimate_theta_fst_bounds _ _ _ _ _).1,
    (estimate_theta_fst_bounds _ _ _ _ _).2⟩

/-- Witness for the amended C4: a fully-resolving one-item Submit. -/
theorem submit_counts_amended_witness :
    ∃ ft nθ, (submit_assignment cexQbank errSearch dbEmpty okSubmitReq).2 =
        SubmitResp.ok ft nθ (okSubmitReq.responses.count 1) okSubmitReq.responses.length ∧
      (-4 : ℝ) ≤ ft ∧ ft ≤ 4 :=
  submit_counts_amended cexQbank errSearch dbEmpty okSubmitReq
    (by simp [okSubmitReq]) (by simp [okSubmitReq]) (by simp [okSubmitReq])
    (by simp [cexQbank])
    (by
      intro q hq
      simp only [okSubmitReq, List.mem_singleton] at hq
      subst hq
      simp [cexQbank])
    (by
      intro r hr
      simp only [okSubmitReq, List.mem_singleton] at hr
      subst hr
      norm_num)

/-- C5 counterexample: a NextStep call for a first-contact user against an
empty pool is rejected as an InputError, yet it has created an AbilityState
row (theta 0) that did not exist before the call. -/
theorem next_question_creates_row_counterexample :
    (next_question (fun _ => []) errSearch 0 dbEmpty cexNQReq).2 = NQResp.error ∧
    (next_question (fun _ => []) errSearch 0 dbEmpty cexNQReq).1.abilities =
      [(("u", "co"), 0)] ∧
    dbEmpty.abilities = [] :=
  ⟨rfl, rfl, rfl⟩

/-- C5 (amended): Submit rejections (validation failure, unknown assignment /
empty pool) mutate no persistent state at all. A NextStep empty-pool
rejection appends no AdministeredRecord and writes no SubmissionResult, and
leaves an existing AbilityState untouched — but when no AbilityState row
exists for (examinee, course), the call first creates one with theta 0 and
only then rejects, so that row's creation is a state mutation surviving the
InputError (as the counterexample shows). -/
theorem input_error_no_mutation_amended (qbank : String → List (String × Item))
    (search : SearchFun) (pick : ℕ) (st : DBState) (reqS : SubmitReq) (reqN : NQReq) :
    ((reqS.answered = [] ∨ reqS.responses = [] ∨
        reqS.answered.length ≠ reqS.responses.length) →
      submit_assignment qbank search st reqS = (st, SubmitResp.error)) ∧
    (qbank reqS.assignment = [] →
      submit_assignment qbank search st reqS = (st, SubmitResp.error)) ∧
    (qbank reqN.assignment = [] →
      (next_question qbank search pick st reqN).2 = NQResp.error ∧
      (next_question qbank search pick st reqN).1.logs = st.logs ∧
      (next_question qbank search pick st reqN).1.results = st.results ∧
      ((lookupTheta st.abilities reqN.user reqN.course).isSome = true →
        (next_question qbank search pick st reqN).1 = st) ∧
      (lookupTheta st.abilities reqN.user reqN.course = none →
        (next_question qbank search pick st reqN).1.abilities =
          st.abilities ++ [((reqN.user, reqN.course), 0)])) := by
  refine ⟨?_, ?_, ?_⟩
  · intro h
    unfold submit_assignment
    rw [if_pos h]
  · intro h
    by_cases hv : reqS.answered = [] ∨ reqS.responses = [] ∨
        reqS.answered.length ≠ reqS.responses.length
    · unfold submit_assignment
      rw [if_pos hv]
    · unfold submit_assignment
      rw [if_neg hv, if_pos (by simp [h])]
  · intro h
    rcases hl : lookupTheta st.abilities reqN.user reqN.course with - | t
    · have key : next_question qbank search pick st reqN =
          ({ st with abilities := st.abilities ++ [((reqN.user, reqN.course), 0)] },
            NQResp.error) := by
        simp only [next_question, hl, h, List.isEmpty_nil, if_true]
      rw [key]
      refine ⟨rfl, rfl, rfl, ?_, fun _ => rfl⟩
      intro hs
      simp at hs
    · have key : next_question qbank search pick st reqN = (st, NQResp.error) := by
        simp only [next_question, hl, h, List.isEmpty_nil, if_true]
      rw [key]
      refine ⟨rfl, rfl, rfl, fun _ => rfl, ?_⟩
      intro hn
      simp at hn

/-- Witness for the amended C5: a validation-failing Submit leaves the state
untouched, and a NextStep against an empty pool leaves the logs untouched. -/
theorem input_error_no_mutation_witness :
    submit_assignment cexQbank errSearch dbEmpty badSubmitReq = (dbEmpty, SubmitResp.error) ∧
    (next_question (fun _ => []) errSearch 0 dbEmpty cexNQReq).1.logs = dbEmpty.logs := by
  constructor
  · exact (input_error_no_mutation_amended cexQbank errSearch 0 dbEmpty
      badSubmitReq cexNQReq).1 (Or.inl rfl)
  · exact ((input_error_no_mutation_amended (fun _ => []) errSearch 0 dbEmpty
      badSubmitReq cexNQReq).2.2 rfl).2.1

/-- C10: For every priorTheta and every administered-items list with at most
one element, calling Estimate with an EMPTY responses list returns
clamp(priorTheta - 0.3, -4, 4): the absence of a most-recent response is
treated exactly like an incorrect answer. This edge is reachable through
Submit when none of the supplied answeredItemIds resolve against the
assignment's item pool, in which case the examinee's finalTheta is the
stored theta minus 0.3 (clamped). -/
theorem estimate_empty_responses_spec (search : SearchFun) (items : List Item)
    (administered : List ℕ) (θ : ℝ) (qbank : String → List (String × Item))
    (st : DBState) (req : SubmitReq)
    (hlen : administered.length ≤ 1)
    (h1 : req.answered ≠ []) (h2 : req.responses ≠ [])
    (h3 : req.answered.length = req.responses.length)
    (h4 : qbank req.assignment ≠ [])
    (hnores : ∀ q ∈ req.answered, q ∉ (qbank req.assignment).map Prod.fst) :
    estimate_theta search items administered [] θ = (clip (θ - 0.3) (-4) 4, θ) ∧
    ((submit_assignment qbank search st req).2).finalT =
      some (clip ((lookupTheta st.abilities req.user req.course).getD 0 - 0.3) (-4) 4) := by
  refine ⟨estimate_theta_nil search items administered θ hlen, ?_⟩
  have hvalid : ¬(req.answered = [] ∨ req.responses = [] ∨
      req.answered.length ≠ req.responses.length) := by
    push_neg
    exact ⟨h1, h2, h3⟩
  have hpool : ¬((qbank req.assignment).isEmpty = true) := by
    simpa [List.isEmpty_iff] using h4
  have hres : resolved_pairs (qbank req.assignment) req.answered req.responses = [] := by
    apply List.filter_eq_nil_iff.mpr
    intro p hp
    simpa using hnores p.1 (List.of_mem_zip hp).1
  unfold submit_assignment
  rw [if_neg hvalid, if_neg hpool]
  simp only [hres, List.map_nil, SubmitResp.finalT]
  rw [estimate_theta_nil _ _ _ _ (by simp)]

/-- Witness for C10 with the concrete no-resolution Submit request. -/
theorem estimate_empty_responses_spec_witness :
    ([] : List ℕ).length ≤ 1 ∧ cexSubmitReq.answered ≠ [] ∧ cexSubmitReq.responses ≠ [] ∧
    cexSubmitReq.answered.length = cexSubmitReq.responses.length ∧
    cexQbank cexSubmitReq.assignment ≠ [] ∧
    (∀ q ∈ cexSubmitReq.answered, q ∉ (cexQbank cexSubmitReq.assignment).map Prod.fst) ∧
    (estimate_theta errSearch [] [] [] 0 = (clip ((0 : ℝ) - 0.3) (-4) 4, (0 : ℝ)) ∧
      ((submit_assignment cexQbank errSearch dbEmpty cexSubmitReq).2).finalT =
        some (clip ((lookupTheta dbEmpty.abilities cexSubmitReq.user
          cexSubmitReq.course).getD 0 - 0.3) (-4) 4)) := by
  have hno : ∀ q ∈ cexSubmitReq.answered,
      q ∉ (cexQbank cexSubmitReq.assignment).map Prod.fst := by
    intro q hq
    simp only [cexSubmitReq, List.mem_singleton] at hq
    subst hq
    simp [cexQbank]
  refine ⟨by simp, by simp [cexSubmitReq], by simp [cexSubmitReq], by simp [cexSubmitReq],
    by simp [cexQbank], hno, ?_⟩
  exact estimate_empty_responses_spec errSearch [] [] 0 cexQbank dbEmpty cexSubmitReq
    (by simp) (by simp [cexSubmitReq]) (by simp [cexSubmitReq]) (by simp [cexSubmitReq])
    (by simp [cexQbank]) hno

end CatService
